import Mathlib

/-!
Verification development for the auto-claude workspace / merge subsystem.

Shallow embedding of `src/auto-claude/workspace.py` and
`src/apps/backend/spec/validate_pkg/auto_fix.py`.  Pure computations are
translated to Lean functions; the outcomes of subprocess invocations and of
external collaborators (the git CLI, the AI caller, the `os.kill` probe,
`difflib`-free helpers, the `core.plan_normalization` module that is not part
of this repository) are passed in as explicit oracle parameters, so that every
embedded function is a total, executable Lean definition.
-/

set_option autoImplicit false

namespace AutoClaude

/-! ## Python string helpers

Small total models of the Python `str` operations the source uses, written
by structural recursion over the character list so that they evaluate inside
the kernel.  `pyStrip` is `str.strip()` (whitespace at both ends; the ASCII
whitespace set covers everything the source handles), `pyLower` is
`str.lower()` (the source only lowercases ASCII extensions and status
words), `countNL` is `str.count('\n')`, and `splitLines` is
`str.split('\n')`. -/

def pyWhitespace (c : Char) : Bool :=
  c = ' ' ∨ c = '\t' ∨ c = '\n' ∨ c = '\r' ∨ c = '\x0b' ∨ c = '\x0c'

def pyStrip (s : String) : String :=
  String.mk (((s.toList.dropWhile pyWhitespace).reverse.dropWhile
    pyWhitespace).reverse)

def pyLower (s : String) : String := String.mk (s.toList.map Char.toLower)

def countNL (s : String) : Nat := s.toList.count '\n'

/-- `str.split(sep)` for a single-character separator. -/
def splitOnChar (c : Char) : List Char → List (List Char)
  | [] => [[]]
  | x :: xs =>
    match splitOnChar c xs with
    | [] => [[]]
    | y :: ys => if x = c then [] :: y :: ys else (x :: y) :: ys

def splitLines (s : String) : List String :=
  (splitOnChar '\n' s.toList).map String.mk

def hasSubList (pat : List Char) : List Char → Bool
  | [] => pat.isEmpty
  | c :: rest => pat.isPrefixOf (c :: rest) || hasSubList pat rest

/-- Python `pat in s` substring test. -/
def containsSub (s pat : String) : Bool := hasSubList pat.toList s.toList

/-- Python `s.startswith(pre)`. -/
def startsWithStr (s pre : String) : Bool := pre.toList.isPrefixOf s.toList

/-- Python `'\n'.join(l)`. -/
def joinNL : List String → String
  | [] => ""
  | [x] => x
  | x :: xs => x ++ "\n" ++ joinNL xs

/-- `pathlib.PurePath(p).suffix`: the extension of the final path component.
CPython returns `name[i:]` for `i = name.rfind('.')` when `0 < i < len - 1`,
and `""` otherwise. -/
def pySuffix (p : String) : String :=
  let cs := ((splitOnChar '/' p.toList).reverse).headD []
  match cs.reverse.findIdx? (· = '.') with
  | none => ""
  | some j =>
    let i := cs.length - 1 - j
    if 0 < i ∧ i < cs.length - 1 then String.mk (cs.drop i) else ""

/-! ## Heuristic three-way merge (`_heuristic_merge`)

The source splits each content with `splitlines(keepends=True)` and takes
`difflib.unified_diff(base_lines, side_lines)`.  `splitlines(keepends=True)`
is injective (concatenating the pieces recovers the string) and
`unified_diff` yields an empty sequence exactly when the two line lists are
equal, so "the base→side diff is empty" is equivalent to "the side content
equals the base content"; the embedding tests that equality directly. -/

def heuristic_merge (main_content worktree_content : String)
    (base_content : Option String) : Option String :=
  match base_content with
  | none => some worktree_content
  | some b =>
    if main_content = b then some worktree_content
    else if worktree_content = b then some main_content
    else none

/-! ## Process liveness probe (`_is_process_running`)

`os.kill(pid, 0)` either succeeds or raises an `OSError`; the relevant
subclasses are `ProcessLookupError` (ESRCH) and `PermissionError` (EPERM).
The outcome of the signal probe is an oracle `kill : Int → KillOutcome`.
The source catches `(OSError, ProcessLookupError)` — and `PermissionError`
IS a subclass of `OSError`, so every error branch returns `False`. -/

inductive KillOutcome where
  | ok
  | permissionDenied
  | noSuchProcess
  | otherOSError
deriving DecidableEq, Repr

def is_process_running (kill : Int → KillOutcome) (pid : Int) : Bool :=
  match kill pid with
  | .ok => true
  | .permissionDenied => false
  | .noSuchProcess => false
  | .otherOSError => false

/-! ## Merge lock (`MergeLock.__enter__` / `MergeLock.__exit__`) -/

def MERGE_LOCK_TIMEOUT : Int := 300

/-- Payload of `.auto-claude/.locks/merge-<spec>.lock`.  A JSON payload with
missing `timestamp` / `pid` keys is modelled by the `.get(..., 0)` defaults
already substituted. -/
structure LockPayload where
  spec_name : String
  timestamp : Int
  pid : Int
deriving DecidableEq, Repr

/-- State of the lock file on disk: absent, present but not valid JSON
(`json.JSONDecodeError` on read), or holding a parsed payload. -/
inductive LockFileState where
  | absent
  | malformed
  | holds (p : LockPayload)
deriving DecidableEq, Repr

def lockFilePath (spec_name : String) : String :=
  ".auto-claude/.locks/merge-" ++ spec_name ++ ".lock"

def lockHeldMessage (spec_name : String) : String :=
  "Another merge operation is in progress for " ++ spec_name ++
  ". If this is an error, delete " ++ lockFilePath spec_name

/-- `MergeLock.__enter__`.  `now` is `time.time()`, `self_pid` is
`os.getpid()`, `kill` is the `os.kill` probe used by `_is_process_running`.
On success the returned payload is exactly what is written to the lock file
(the previous file, if any, was unlinked first). -/
def mergeLock_enter (kill : Int → KillOutcome) (now self_pid : Int)
    (spec_name : String) (file : LockFileState) :
    Except String LockPayload :=
  let fresh : LockPayload := ⟨spec_name, now, self_pid⟩
  match file with
  | .absent => .ok fresh
  | .malformed => .ok fresh
  | .holds p =>
    if now - p.timestamp > MERGE_LOCK_TIMEOUT then .ok fresh
    else if p.pid ≠ 0 ∧ ¬ is_process_running kill p.pid then .ok fresh
    else .error (lockHeldMessage spec_name)

/-- `MergeLock.__exit__`.  Inputs: whether this holder's `__enter__`
succeeded, whether the lock file exists, and whether `unlink` would raise.
Output: `(lock file exists afterwards, an exception escapes __exit__)`.
The `unlink` is wrapped in `try/except Exception: pass`. -/
def mergeLock_exit (acquired file_exists unlink_raises : Bool) : Bool × Bool :=
  if acquired && file_exists then
    if unlink_raises then (true, false) else (false, false)
  else (file_exists, false)

/-! ## Smart-merge dispatch (`merge_existing_build` / `_try_smart_merge`)

`_try_smart_merge` wraps `_try_smart_merge_inner` in `with MergeLock(...)`;
a `MergeLockError` raised by `__enter__` is caught and turned into the dict
`{"success": False, "error": str(e), "conflicts": []}`.  The inner result is
an oracle (`inner`).  `merge_existing_build` then dispatches on that dict;
the state-changing calls it can make (`manager.merge_worktree`, which runs
the actual git merge in the base checkout, and `manager.remove_worktree`)
are recorded in an action trace. -/

/-- Truthiness-relevant projection of the result dict of `_try_smart_merge`:
`success`, `stats.ai_assisted`, `git_conflicts`, and the `resolved` /
`conflicts` lists, plus the `error` string. -/
structure SmartResult where
  success : Bool
  ai_assisted : Bool
  git_conflicts : Bool
  resolved : List String
  conflicts : List String
  error : Option String
deriving DecidableEq, Repr

/-- The dict `_try_smart_merge` returns when `MergeLock.__enter__` raises
`MergeLockError`: `{"success": False, "error": str(e), "conflicts": []}`
(all other keys absent, hence falsy). -/
def lockHeldSmartResult (spec_name : String) : SmartResult :=
  { success := false
    ai_assisted := false
    git_conflicts := false
    resolved := []
    conflicts := []
    error := some (lockHeldMessage spec_name) }

def try_smart_merge (kill : Int → KillOutcome) (now self_pid : Int)
    (lock_file : LockFileState) (spec_name : String)
    (inner : Option SmartResult) : Option SmartResult :=
  match mergeLock_enter kill now self_pid spec_name lock_file with
  | .error _ => some (lockHeldSmartResult spec_name)
  | .ok _ => inner

/-- File-system / VCS state-changing operations issued by
`merge_existing_build` itself: the standard git merge of the spec branch into
the base checkout (`manager.merge_worktree`) and the worktree removal. -/
inductive FsAction where
  | gitMergeWorktree
  | removeWorktree
deriving DecidableEq, Repr

/-- `merge_existing_build` after the point where `_try_smart_merge` has
produced `smart` (or `none` for "smart merge not applicable").
`std_merge : Nat → Bool` gives the outcome of the n-th
`manager.merge_worktree` call.  Returns the boolean result together with the
trace of state-changing actions performed. -/
def merge_existing_build (worktree_exists use_smart_merge : Bool)
    (smart : Option SmartResult) (std_merge : Nat → Bool) :
    Bool × List FsAction :=
  if ¬ worktree_exists then (false, [])
  else
    let viaSmart : Option (Bool × List FsAction) :=
      if use_smart_merge then
        match smart with
        | some r =>
          if r.success then
            if r.ai_assisted then some (true, [.removeWorktree])
            else if std_merge 0 then some (true, [.gitMergeWorktree])
            else some (std_merge 1, [.gitMergeWorktree, .gitMergeWorktree])
          else if r.git_conflicts then
            if r.conflicts ≠ [] then some (false, [])
            else some (std_merge 0, [.gitMergeWorktree])
          else some (std_merge 0, [.gitMergeWorktree])
        | none => some (std_merge 0, [.gitMergeWorktree])
      else none
    match viaSmart with
    | some out => out
    | none => (std_merge 0, [.gitMergeWorktree])

/-! ## Git conflict detection (`_check_git_conflicts`)

Every subprocess outcome is an oracle field (each command is issued exactly
once; stdout values are already `.strip()`-ed like the source does).  The
regular-expression search applied to a `CONFLICT` line of the `merge-tree`
output is the oracle `parse_line` (the surrounding loop — line split,
`"CONFLICT" in line`, `.strip()` of the captured group, the non-empty and
deduplication checks — is embedded). -/

structure GitEnv where
  /-- `git rev-parse --abbrev-ref HEAD`; `none` models a non-zero exit. -/
  head_branch : Option String
  /-- `git merge-base <base> <spec-branch>`; `none` models a non-zero exit. -/
  merge_base : Option String
  /-- `git rev-parse <base-branch>`. -/
  rev_main : Option String
  /-- `git rev-parse <spec-branch>`. -/
  rev_spec : Option String
  /-- whether `git merge-tree --write-tree` exited non-zero (conflicts). -/
  merge_tree_conflict : Bool
  /-- `merge-tree` stdout concatenated with its stderr. -/
  merge_tree_out : String
  /-- stdout of `git diff --name-only <merge-base> <main-commit>`. -/
  diff_main : String
  /-- stdout of `git diff --name-only <merge-base> <spec-commit>`. -/
  diff_spec : String

/-- The `for line in output.split("\n")` loop of `_check_git_conflicts`. -/
def parse_conflict_files (parse_line : String → Option String)
    (output : String) : List String :=
  (splitLines output).foldl
    (fun acc line =>
      if containsSub line "CONFLICT" then
        match parse_line line with
        | some g =>
          let fp := pyStrip g
          if fp ≠ "" ∧ ¬ acc.contains fp then acc ++ [fp] else acc
        | none => acc
      else acc)
    []

/-- `set(result.stdout.strip().split("\n")) if result.stdout.strip() else
set()`, kept as the underlying list (membership is what matters; the Python
set has no specified order). -/
def pySplitFiles (s : String) : List String :=
  if pyStrip s = "" then [] else splitLines (pyStrip s)

structure ConflictCheck where
  has_conflicts : Bool
  conflicting_files : List String
  base_branch : String
  spec_branch : String
deriving DecidableEq, Repr

def check_git_conflicts (env : GitEnv) (parse_line : String → Option String)
    (spec_name : String) : ConflictCheck :=
  let spec_branch := "auto-claude/" ++ spec_name
  let base_branch := env.head_branch.getD "main"
  let base : ConflictCheck := ⟨false, [], base_branch, spec_branch⟩
  match env.merge_base with
  | none => base
  | some _ =>
    match env.rev_main, env.rev_spec with
    | some _, some _ =>
      if env.merge_tree_conflict then
        let parsed := parse_conflict_files parse_line env.merge_tree_out
        let files :=
          if parsed = [] then
            ((pySplitFiles env.diff_main).filter
              (fun f => (pySplitFiles env.diff_spec).contains f)).dedup
          else parsed
        { base with has_conflicts := true, conflicting_files := files }
      else base
    | _, _ => base

/-! ## Syntax validation (`_validate_merged_syntax`)

The external checkers (`npx tsc`, `npx eslint`, Python's `compile`, and
`json.loads`) are oracles.  A subprocess either completes with an exit code
and output, times out (`subprocess.TimeoutExpired`), or is missing
(`FileNotFoundError` / any other exception) — all three exceptional cases
make the whole `try` block return `(True, "")`. -/

inductive Proc where
  | ok (returncode : Int) (stdout stderr : String)
  | timeout
  | missing
  | otherError
deriving DecidableEq, Repr

structure ValidateEnv where
  /-- outcome of `npx tsc --noEmit --skipLibCheck <tmp>`. -/
  tsc : Proc
  /-- outcome of `npx eslint --no-eslintrc ... <tmp>`. -/
  eslint : Proc
  /-- `compile(content, file_path, 'exec')`: `none` on success, otherwise
  `(e.msg, e.lineno)` of the raised `SyntaxError`. -/
  pyCompile : String → Option (String × Int)
  /-- `json.loads(content)`: `none` on success, otherwise
  `(e.msg, e.lineno)` of the raised `json.JSONDecodeError`. -/
  jsonDecode : String → Option (String × Int)

/-- Stderr line filter of the tsc branch: keep non-empty lines that do not
start with `npm warn` / `npm WARN`. -/
def npmWarnFilter (stderr : String) : List String :=
  (splitLines (pyStrip stderr)).filter
    (fun l => l ≠ "" ∧ ¬ startsWithStr l "npm warn" ∧
      ¬ startsWithStr l "npm WARN")

def run_eslint_check (es : Proc) : Bool × String :=
  match es with
  | .ok rc out _ =>
    if rc > 1 then (true, "")
    else if rc = 1 ∧ containsSub out "Parsing error" then
      (false, "Syntax error in merged code")
    else (true, "")
  | .timeout => (true, "")
  | .missing => (true, "")
  | .otherError => (true, "")

def validate_tsjs (is_ts : Bool) (tsc es : Proc) : Bool × String :=
  if is_ts then
    match tsc with
    | .ok rc _ err =>
      if rc ≠ 0 then
        let error_lines := npmWarnFilter err
        if error_lines ≠ [] then
          (false, joinNL (error_lines.take 3))
        else run_eslint_check es
      else run_eslint_check es
    | .timeout => (true, "")
    | .missing => (true, "")
    | .otherError => (true, "")
  else run_eslint_check es

/-- `_validate_merged_syntax(file_path, content, project_dir)`. -/
def validate_merged (env : ValidateEnv) (file_path content : String) :
    Bool × String :=
  let ext := pyLower (pySuffix file_path)
  if ext ∈ [".ts", ".tsx", ".js", ".jsx"] then
    validate_tsjs (ext ∈ [".ts", ".tsx"]) env.tsc env.eslint
  else if ext = ".py" then
    match env.pyCompile content with
    | none => (true, "")
    | some (msg, lineno) =>
      (false, "Python syntax error: " ++ msg ++ " at line " ++ toString lineno)
  else if ext = ".json" then
    match env.jsonDecode content with
    | none => (true, "")
    | some (msg, lineno) =>
      (false, "JSON error: " ++ msg ++ " at line " ++ toString lineno)
  else (true, "")

/-! ## AI merge engine (`_merge_file_with_ai`)

The injected AI caller, the marker-file producer
(`_create_conflict_file_with_git`), the marker parser, the resolution
extractor / reassembler, the code-block extractor, the "looks like code"
heuristic, and the validator verdict are all oracles in `MergeEnv`.  AI
responses are indexed by call number (`ai k` answers the k-th call made by
this `_merge_file_with_ai` invocation); the tag of every call made is
collected in a trace, so "the AI caller is never invoked" is "the trace is
empty". -/

def MAX_FILE_LINES_FOR_AI : Nat := 5000

def BINARY_EXTENSIONS : List String :=
  [".png", ".jpg", ".jpeg", ".gif", ".ico", ".webp", ".bmp", ".svg",
   ".pdf", ".doc", ".docx", ".xls", ".xlsx", ".ppt", ".pptx",
   ".zip", ".tar", ".gz", ".rar", ".7z",
   ".exe", ".dll", ".so", ".dylib", ".bin",
   ".mp3", ".mp4", ".wav", ".avi", ".mov", ".mkv",
   ".woff", ".woff2", ".ttf", ".otf", ".eot",
   ".pyc", ".pyo", ".class", ".o", ".obj"]

/-- `_is_binary_file`: `Path(file_path).suffix.lower() in BINARY_EXTENSIONS`. -/
def is_binary_file (file_path : String) : Bool :=
  BINARY_EXTENSIONS.contains (pyLower (pySuffix file_path))

/-- A conflict region parsed from git merge markers. -/
structure ConflictRegion where
  main_lines : String
  worktree_lines : String
deriving DecidableEq, Repr

/-- Which kind of prompt each AI call carries: the conflict-region-only
prompt, the full-file (three-way or timeline) prompt, or the targeted
fix-the-error retry prompt. -/
inductive CallTag where
  | conflictOnly
  | fullFile
  | retryFix
deriving DecidableEq, Repr

structure MergeEnv where
  /-- whether `create_claude_resolver().ai_call_fn` is configured. -/
  ai_available : Bool
  /-- response text of the k-th AI call of this invocation. -/
  ai : Nat → String
  /-- outcome of `_create_conflict_file_with_git` (marker-bearing content,
  or `none` for a clean merge / missing base / failure). -/
  conflict_file : Option String
  /-- `parse_conflict_markers` (first component). -/
  parse_markers : String → List ConflictRegion
  /-- `extract_conflict_resolutions` (empty list is falsy in the source). -/
  extract_resolutions : String → List ConflictRegion → List String
  /-- `reassemble_with_resolutions`. -/
  reassemble : String → List ConflictRegion → List String → String
  /-- `resolver._extract_code_block`; `none` covers a failed or empty
  extraction (`if not merged`). -/
  extract_code : String → Option String
  /-- `resolver._looks_like_code`. -/
  looks_like_code : String → Bool
  /-- verdict of `_validate_merged_syntax` on a candidate, for this file. -/
  valid : String → Bool

/-- Python truthiness of an `Optional[str]` (`None` and `""` are falsy). -/
def pyTruthyStr (o : Option String) : Bool :=
  match o with
  | none => false
  | some s => s ≠ ""

/-- `merged = resolver._extract_code_block(response, language)`, falling back
to `response.strip()` when the response "looks like code". -/
def extract_merged (env : MergeEnv) (response : String) : Option String :=
  match env.extract_code response with
  | some m => some m
  | none => if env.looks_like_code response then some (pyStrip response) else none

/-- The full-file merge half of `_merge_file_with_ai` (source lines
1970-2101): one AI call, code extraction, validation when a `project_dir`
is available, and the single retry with the targeted fix prompt.  `k` is the
index of the next AI call (0 when the conflict-region attempt made none). -/
def full_file_merge (env : MergeEnv) (k : Nat) (has_project_dir : Bool) :
    Option String × List CallTag :=
  let response := env.ai k
  let trace := [CallTag.fullFile]
  match extract_merged env response with
  | none => (none, trace)
  | some merged =>
    if has_project_dir then
      if env.valid merged then (some merged, trace)
      else
        let retry_response := env.ai (k + 1)
        let trace := trace ++ [CallTag.retryFix]
        match env.extract_code retry_response with
        | some retry_merged =>
          if env.valid retry_merged then (some retry_merged, trace)
          else (none, trace)
        | none => (none, trace)
    else (some merged, trace)

/-- `_merge_file_with_ai`: binary and oversize guards, heuristic fallback
when no AI caller is configured, the conflict-region-only attempt, and the
full-file fallback.  The oracles are total, so the source's
`except`-handlers (a raising AI transport falls back to the next strategy /
the heuristic) have no counterpart here; every claim under study is about
the non-raising executions. -/
def merge_file_with_ai (env : MergeEnv) (file_path main_content
    worktree_content : String) (base_content : Option String)
    (has_project_dir : Bool) : Option String × List CallTag :=
  if is_binary_file file_path then (none, [])
  else if MAX_FILE_LINES_FOR_AI <
      max (countNL main_content) (countNL worktree_content) then (none, [])
  else if ¬ env.ai_available then
    (heuristic_merge main_content worktree_content base_content, [])
  else
    match (if has_project_dir ∧ pyTruthyStr base_content
           then env.conflict_file else none) with
    | some cf =>
      let conflicts := env.parse_markers cf
      if conflicts = [] then full_file_merge env 0 has_project_dir
      else
        let response := env.ai 0
        let trace := [CallTag.conflictOnly]
        if response = "" then
          let (r, t) := full_file_merge env 1 has_project_dir
          (r, trace ++ t)
        else
          let resolutions := env.extract_resolutions response conflicts
          if resolutions = [] then
            let (r, t) := full_file_merge env 1 has_project_dir
            (r, trace ++ t)
          else
            let merged := env.reassemble cf conflicts resolutions
            if has_project_dir then
              if env.valid merged then (some merged, trace)
              else
                let (r, t) := full_file_merge env 1 has_project_dir
                (r, trace ++ t)
            else (some merged, trace)
    | none => full_file_merge env 0 has_project_dir

/-! ## Plan auto-fixer (`auto_fix.py`)

`implementation_plan.json` values are modelled by the JSON tree `J`
(fractional JSON numbers are outside the model; the claim under study is
independent of them).  Python dicts become ordered association lists with
unique keys, as produced by `json.load`; item assignment replaces the value
in place and appends new keys at the end, matching CPython dict semantics.
Where the source would raise an uncaught exception (iterating a non-list,
item assignment on a non-dict), the embedding returns `none`.
`normalize_subtask_aliases` lives in `core.plan_normalization`, which is not
part of this repository, so it is an oracle parameter, as is Python's
`str()` rendering of lists and dicts. -/

inductive J where
  | str (s : String)
  | num (n : Int)
  | bool (b : Bool)
  | null
  | arr (xs : List J)
  | obj (kvs : List (String × J))
deriving Repr

/-- First-occurrence lookup, Python `d.get(k)` on a parsed JSON dict. -/
def dGet : List (String × J) → String → Option J
  | [], _ => none
  | (k1, v1) :: rest, k => if k1 = k then some v1 else dGet rest k

/-- Python `k in d`. -/
def dHas (d : List (String × J)) (k : String) : Bool := (dGet d k).isSome

/-- Python `d[k] = v`: replace in place, or append a new key at the end. -/
def dSet : List (String × J) → String → J → List (String × J)
  | [], k, v => [(k, v)]
  | (k1, v1) :: rest, k, v =>
    if k1 = k then (k, v) :: rest else (k1, v1) :: dSet rest k v

/-- Python `d.pop(k, None)` (the popped value is unused in the source). -/
def dPop (d : List (String × J)) (k : String) : List (String × J) :=
  d.filter (fun kv => kv.1 ≠ k)

/-- Python `d.update(other)`. -/
def dUpdate (d other : List (String × J)) : List (String × J) :=
  other.foldl (fun acc kv => dSet acc kv.1 kv.2) d

/-- Python truthiness of a JSON value. -/
def jTruthy : J → Bool
  | .str s => s ≠ ""
  | .num n => n ≠ 0
  | .bool b => b
  | .null => false
  | .arr xs => !xs.isEmpty
  | .obj kvs => !kvs.isEmpty

/-- Python `v is None`. -/
def jIsNull : J → Bool
  | .null => true
  | _ => false

/-- Python `v == s` for a JSON value and a `str` literal. -/
def jEqStr (v : J) (s : String) : Bool :=
  match v with
  | .str t => t = s
  | _ => false

/-- Python `v == l` for a JSON value and a list of `str`. -/
def jEqStrList (v : J) (l : List String) : Bool :=
  match v with
  | .arr xs =>
    xs.length = l.length ∧ (xs.zip l).all (fun p => jEqStr p.1 p.2)
  | _ => false

/-- Python `a or b` where `a` is `d.get(k)` (absent key ⇒ `None` ⇒ falsy). -/
def orJ (a : Option J) (b : J) : J :=
  match a with
  | some v => if jTruthy v then v else b
  | none => b

def isArrOpt (o : Option J) : Bool :=
  match o with
  | some (.arr _) => true
  | _ => false

/-- Python `str()` on a JSON value; the rendering of lists and dicts is the
oracle `strO` (the claim under study never depends on it). -/
def pyStrOf (strO : J → String) : J → String
  | .str s => s
  | .num n => toString n
  | .bool b => if b then "True" else "False"
  | .null => "None"
  | .arr xs => strO (.arr xs)
  | .obj kvs => strO (.obj kvs)

/-- Python `str.isdigit()` (ASCII digits; non-empty). -/
def pyIsDigitStr (s : String) : Bool :=
  s ≠ "" ∧ s.toList.all (·.isDigit)

/-- `int(s)` for a string of ASCII digits. -/
def parseDigits (s : String) : Int :=
  (s.toList.foldl (fun acc c => acc * 10 + (c.toNat - '0'.toNat)) 0 : Nat)

def STATUS_SET : List String :=
  ["pending", "in_progress", "completed", "blocked", "failed"]

/-- `_normalize_status`. -/
def normalize_status (value : J) : String :=
  match value with
  | .str s =>
    let normalized := pyLower (pyStrip s)
    if STATUS_SET.contains normalized then normalized
    else if ["not_started", "not started", "todo", "to_do",
             "backlog"].contains normalized then "pending"
    else if ["in-progress", "inprogress", "working"].contains normalized then
      "in_progress"
    else if ["done", "complete", "completed_successfully"].contains
        normalized then "completed"
    else "pending"
  | _ => "pending"

/-- The `status` default / normalization step at the end of the subtask
loop body. -/
def fix_status (st : List (String × J)) : List (String × J) × Bool :=
  if dHas st "status" then
    let cur := (dGet st "status").getD .null
    let ns := normalize_status cur
    if jEqStr cur ns then (st, false)
    else (dSet st "status" (.str ns), true)
  else (dSet st "status" (.str "pending"), true)

/-- The per-subtask fixes of `auto_fix_plan` (alias normalization via the
external `normalize_subtask_aliases`, then the `id`, `description` and
`status` defaults / normalization).  `i`, `j` are the 0-based phase and
subtask indices.  The second component is whether anything changed. -/
def fix_subtask (aliasFn : List (String × J) → List (String × J) × Bool)
    (i j : Nat) (st : List (String × J)) : List (String × J) × Bool :=
  let ar := aliasFn st
  let st1 := if ar.2 then dUpdate st ar.1 else st
  let st2 := if dHas st1 "id" then st1
    else dSet st1 "id"
      (.str ("subtask-" ++ toString (i + 1) ++ "-" ++ toString (j + 1)))
  let st3 := if dHas st2 "description" then st2
    else dSet st2 "description" (.str "No description")
  let fs := fix_status st3
  (fs.1, (ar.2 || !dHas st1 "id" || !dHas st2 "description") || fs.2)

/-- `for j, subtask in enumerate(...)`: every element must be a dict (a
non-dict subtask makes the source raise on item assignment). -/
def fix_subtasks (aliasFn : List (String × J) → List (String × J) × Bool)
    (i : Nat) : Nat → List J → Option (List J × Bool)
  | _, [] => some ([], false)
  | j, x :: xs =>
    match x with
    | .obj kv =>
      match fix_subtasks aliasFn i (j + 1) xs with
      | none => none
      | some (rest, f2) =>
        some (.obj (fix_subtask aliasFn i j kv).1 :: rest,
          (fix_subtask aliasFn i j kv).2 || f2)
    | _ => none

/-- Per-phase field fixes (everything before the subtask loop): `name` /
`title` alias, `phase` / `phase_id` numbering, `depends_on` normalization,
the `name` default, and sourcing `subtasks` from `chunks`.  Total: none of
these steps can raise on a dict phase. -/
def fix_phase_fields (strO : J → String) (i : Nat)
    (ph : List (String × J)) : List (String × J) × Bool :=
  let ph1 := if ¬ dHas ph "name" ∧ dHas ph "title" then
      dSet ph "name" ((dGet ph "title").getD .null)
    else ph
  let f1 := decide (¬ dHas ph "name" ∧ dHas ph "title")
  let step2 : List (String × J) × Bool :=
    if ¬ dHas ph1 "phase" ∧ dHas ph1 "phase_id" then
      let phase_id := (dGet ph1 "phase_id").getD .null
      let phase_id_str :=
        if jIsNull phase_id then "" else pyStrip (pyStrOf strO phase_id)
      let phase_num : Option Int :=
        match phase_id with
        | .num n => some n
        | .str s => if pyIsDigitStr (pyStrip s)
            then some (parseDigits (pyStrip s)) else none
        | _ => none
      match phase_num with
      | some n =>
        let ph2 := if ¬ dHas ph1 "id" then dSet ph1 "id" (.str (toString n))
          else ph1
        (dSet ph2 "phase" (.num n), true)
      | none =>
        if ¬ dHas ph1 "id" ∧ ¬ jIsNull phase_id then
          (dSet ph1 "id" (.str phase_id_str), true)
        else (ph1, f1)
    else (ph1, f1)
  let ph2 := step2.1
  let f2 := step2.2
  let ph3 := if ¬ dHas ph2 "phase" then dSet ph2 "phase" (.num (i + 1)) else ph2
  let f3 := f2 || !dHas ph2 "phase"
  let depends_on_raw := (dGet ph3 "depends_on").getD (.arr [])
  let normalized_depends_on : List String :=
    match depends_on_raw with
    | .arr ds =>
      (ds.filter (fun d => !jIsNull d)).map
        (fun d => pyStrip (pyStrOf strO d))
    | .null => []
    | other => [pyStrip (pyStrOf strO other)]
  let ph4 := if ¬ jEqStrList depends_on_raw normalized_depends_on then
      dSet ph3 "depends_on" (.arr (normalized_depends_on.map .str))
    else ph3
  let f4 := f3 || !jEqStrList depends_on_raw normalized_depends_on
  let ph5 := if ¬ dHas ph4 "name" then
      dSet ph4 "name" (.str ("Phase " ++ toString (i + 1)))
    else ph4
  let f5 := f4 || !dHas ph4 "name"
  let ph6 :=
    if ¬ dHas ph5 "subtasks" then
      dSet ph5 "subtasks" ((dGet ph5 "chunks").getD (.arr []))
    else if dHas ph5 "chunks" ∧ ¬ jTruthy ((dGet ph5 "subtasks").getD .null)
      then dSet ph5 "subtasks" ((dGet ph5 "chunks").getD (.arr []))
    else ph5
  let f6 := f5 ||
    (!dHas ph5 "subtasks" ||
      (dHas ph5 "chunks" && !jTruthy ((dGet ph5 "subtasks").getD .null)))
  (ph6, f6)

/-- Dispatch on the value found under `subtasks` when the loop runs:
iterating an empty string or empty dict runs zero iterations and leaves the
value in place; any other non-list value (or a non-dict subtask) makes the
source raise. -/
def subtasks_value_fix
    (aliasFn : List (String × J) → List (String × J) × Bool) (i : Nat)
    (ph1 : List (String × J)) (f1 : Bool) : J → Option (List (String × J) × Bool)
  | .arr xs =>
    match fix_subtasks aliasFn i 0 xs with
    | none => none
    | some (xs', f2) => some (dSet ph1 "subtasks" (.arr xs'), f1 || f2)
  | .str s => if s = "" then some (ph1, f1) else none
  | .obj kvs => if kvs.isEmpty then some (ph1, f1) else none
  | _ => none

/-- One phase of the `for i, phase in enumerate(plan.get("phases", []))`
loop: the field fixes, then the subtask loop over `phase.get("subtasks",
[])`. -/
def fix_phase (strO : J → String)
    (aliasFn : List (String × J) → List (String × J) × Bool) (i : Nat)
    (ph : List (String × J)) : Option (List (String × J) × Bool) :=
  let pr := fix_phase_fields strO i ph
  subtasks_value_fix aliasFn i pr.1 pr.2 ((dGet pr.1 "subtasks").getD (.arr []))

def fix_phases (strO : J → String)
    (aliasFn : List (String × J) → List (String × J) × Bool) :
    Nat → List J → Option (List J × Bool)
  | _, [] => some ([], false)
  | i, x :: xs =>
    match x with
    | .obj kv =>
      match fix_phase strO aliasFn i kv with
      | none => none
      | some pr =>
        match fix_phases strO aliasFn (i + 1) xs with
        | none => none
        | some (rest, f2) => some (.obj pr.1 :: rest, pr.2 || f2)
    | _ => none

/-- The top-level fixes of `auto_fix_plan`: lifting a legacy `subtasks` /
`chunks` list into a single phase, and the `feature` / `workflow_type` /
`phases` defaults.  Total: none of these steps can raise on a dict plan. -/
def auto_fix_top (p0 : List (String × J)) : List (String × J) × Bool :=
  let lift :=
    ¬ dHas p0 "phases" ∧
      (isArrOpt (dGet p0 "subtasks") ∨ isArrOpt (dGet p0 "chunks"))
  let p1 := if lift then
      let subtasks := orJ (dGet p0 "subtasks")
        (orJ (dGet p0 "chunks") (.arr []))
      dPop (dPop (dSet p0 "phases"
        (.arr [.obj [("id", .str "1"), ("phase", .num 1),
                     ("name", .str "Phase 1"),
                     ("subtasks", subtasks)]])) "subtasks") "chunks"
    else p0
  let p2 := if dHas p1 "feature" then p1
    else dSet p1 "feature"
      (orJ (dGet p1 "title") (orJ (dGet p1 "spec_id")
        (.str "Unnamed Feature")))
  let p3 := if dHas p2 "workflow_type" then p2
    else dSet p2 "workflow_type" (.str "feature")
  let p4 := if dHas p3 "phases" then p3 else dSet p3 "phases" (.arr [])
  let f4 := decide lift || !dHas p1 "feature" || !dHas p2 "workflow_type" ||
    !dHas p3 "phases"
  (p4, f4)

/-- Dispatch on the value found under `phases` when the phase loop runs. -/
def phases_value_fix (strO : J → String)
    (aliasFn : List (String × J) → List (String × J) × Bool)
    (p4 : List (String × J)) (f4 : Bool) : J → Option (J × Bool)
  | .arr xs =>
    match fix_phases strO aliasFn 0 xs with
    | none => none
    | some (xs', f5) => some (.obj (dSet p4 "phases" (.arr xs')), f4 || f5)
  | .str s => if s = "" then some (.obj p4, f4) else none
  | .obj kvs => if kvs.isEmpty then some (.obj p4, f4) else none
  | _ => none

/-- `auto_fix_plan` from the point where `implementation_plan.json` has been
parsed into `plan`.  Returns the plan as it stands when the function
completes (what `json.dump` writes when anything changed) together with the
`fixed` flag, or `none` when the source would raise an uncaught exception. -/
def auto_fix_plan (strO : J → String)
    (aliasFn : List (String × J) → List (String × J) × Bool) (plan : J) :
    Option (J × Bool) :=
  match plan with
  | .obj p0 =>
    let pr := auto_fix_top p0
    phases_value_fix strO aliasFn pr.1 pr.2
      ((dGet pr.1 "phases").getD (.arr []))
  | _ => none

/-- The dict elements of a JSON list. -/
def objElems (xs : List J) : List (List (String × J)) :=
  xs.filterMap (fun x => match x with | .obj kv => some kv | _ => none)

/-- The phases of a plan that are dicts inside a `phases` list. -/
def phaseObjs (v : J) : List (List (String × J)) :=
  match v with
  | .obj p =>
    match dGet p "phases" with
    | some (.arr xs) => objElems xs
    | _ => []
  | _ => []

/-- The subtasks of a phase that are dicts inside a `subtasks` list. -/
def subtaskObjs (ph : List (String × J)) : List (List (String × J)) :=
  match dGet ph "subtasks" with
  | some (.arr xs) => objElems xs
  | _ => []

/-! ## Concrete instantiations used by witnesses -/

/-- A kill probe under which pid 99999 does not exist and every other pid is
alive. -/
def killW : Int → KillOutcome := fun p => if p = 99999 then .noSuchProcess else .ok

/-- A kill probe raising `PermissionError` for every pid (a live process
owned by another user). -/
def killPermissionDenied : Int → KillOutcome := fun _ => .permissionDenied

/-- A merge environment with inert oracles (only the guards matter). -/
def mergeEnvW : MergeEnv :=
  { ai_available := true
    ai := fun _ => ""
    conflict_file := none
    parse_markers := fun _ => []
    extract_resolutions := fun _ _ => []
    reassemble := fun _ _ _ => ""
    extract_code := fun _ => none
    looks_like_code := fun _ => false
    valid := fun _ => true }

/-- A merge environment whose first AI response yields extractable code that
never validates, and whose retry response yields nothing extractable. -/
def mergeEnvRetryW : MergeEnv :=
  { mergeEnvW with
    ai := fun k => if k = 0 then "r0" else "r1"
    extract_code := fun s => if s = "r0" then some "m0" else none
    valid := fun _ => false }

/-- A merge environment whose AI response yields code that validates. -/
def mergeEnvValidW : MergeEnv :=
  { mergeEnvW with
    ai := fun _ => "r0"
    extract_code := fun s => if s = "r0" then some "m0" else none
    valid := fun s => s = "m0" }

/-- A git environment: conflicting `merge-tree` exit, no parseable
`CONFLICT` line in its output, and `b.txt` changed on both sides. -/
def gitEnvW : GitEnv :=
  { head_branch := some "main"
    merge_base := some "mb"
    rev_main := some "c1"
    rev_spec := some "c2"
    merge_tree_conflict := true
    merge_tree_out := "merge failed"
    diff_main := "a.txt\nb.txt"
    diff_spec := "b.txt\nc.txt" }

/-- A regex oracle that never matches. -/
def parseLineW : String → Option String := fun _ => none

/-- A validation environment where both checkers fail exceptionally and only
the content `"bad"` fails to JSON-decode. -/
def validateEnvW : ValidateEnv :=
  { tsc := .timeout
    eslint := .missing
    pyCompile := fun _ => none
    jsonDecode := fun s => if s = "bad" then some ("Expecting value", 1) else none }

/-- Identity `str()` oracle for containers. -/
def strOW : J → String := fun _ => ""

/-- Identity alias-normalization oracle (`normalize_subtask_aliases` that
changes nothing). -/
def aliasFnW : List (String × J) → List (String × J) × Bool := fun d => (d, false)

/-- A one-phase, one-subtask plan whose subtask status is the non-standard
variant `"Done"`. -/
def planW : J :=
  .obj [("phases", .arr [.obj [("subtasks",
    .arr [.obj [("status", .str "Done")]])]])]

/-- The subtask `planW`'s subtask becomes after `auto_fix_plan`. -/
def subtaskW : List (String × J) :=
  [("status", J.str "completed"), ("id", J.str "subtask-1-1"),
   ("description", J.str "No description")]

/-- The phase `planW`'s phase becomes after `auto_fix_plan`. -/
def phW : List (String × J) :=
  [("subtasks", J.arr [J.obj subtaskW]), ("phase", J.num 1),
   ("name", J.str "Phase 1")]

/-- What `auto_fix_plan strOW aliasFnW planW` writes. -/
def resW : J :=
  .obj [("phases", J.arr [J.obj phW]), ("feature", J.str "Unnamed Feature"),
        ("workflow_type", J.str "feature")]

/-! ## Theorems -/

/-- Claim C1 (code bug).  With the merge lock for `spec-x` validly held by
another live process (payload written at the same instant, holder pid 4242
alive), `_try_smart_merge` returns the `LockHeld` error dict — but
`merge_existing_build` then falls through to the standard
`manager.merge_worktree` git merge (the dispatch matches neither the
`git_conflicts` nor the `conflicts` branch of the failure dict), so the base
checkout IS merged into and the call returns `True`, not a failure. -/
theorem merge_existing_build_lock_held_merges_anyway :
    try_smart_merge (fun _ => KillOutcome.ok) 1000 7
        (.holds ⟨"spec-x", 1000, 4242⟩) "spec-x" none =
      some (lockHeldSmartResult "spec-x")
    ∧ merge_existing_build true true
        (try_smart_merge (fun _ => KillOutcome.ok) 1000 7
          (.holds ⟨"spec-x", 1000, 4242⟩) "spec-x" none)
        (fun _ => true) = (true, [FsAction.gitMergeWorktree]) :=
  ⟨rfl, rfl⟩

/-- Claim C6 (code bug).  `_is_process_running` catches `(OSError,
ProcessLookupError)`, and `PermissionError` is a subclass of `OSError`, so a
pid whose null-signal probe raises a permission-denied error is reported as
NOT running — the claim (and the spec's design note) say it should be
treated as alive. -/
theorem is_process_running_permission_denied :
    is_process_running killPermissionDenied 4242 = false := rfl

/-- Claim C3.  `_heuristic_merge` returns the worktree content when the base
is absent; with a base present it returns the side that changed when exactly
one side differs from the base, and `None` when both sides differ.  (The
definition takes no AI caller at all.) -/
theorem heuristic_merge_spec (m w b : String) :
    heuristic_merge m w none = some w
    ∧ (m = b → w ≠ b → heuristic_merge m w (some b) = some w)
    ∧ (m ≠ b → w = b → heuristic_merge m w (some b) = some m)
    ∧ (m ≠ b → w ≠ b → heuristic_merge m w (some b) = none) := by
  refine ⟨rfl, ?_, ?_, ?_⟩
  · intro h1 _; simp [heuristic_merge, h1]
  · intro h1 h2; simp [heuristic_merge, h1, h2]
  · intro h1 h2; simp [heuristic_merge, h1, h2]

theorem heuristic_merge_spec_witness :
    heuristic_merge "a" "x" none = some "x"
    ∧ heuristic_merge "b" "x" (some "b") = some "x"
    ∧ heuristic_merge "y" "b" (some "b") = some "y"
    ∧ heuristic_merge "y" "x" (some "b") = none :=
  ⟨(heuristic_merge_spec "a" "x" "b").1,
   (heuristic_merge_spec "b" "x" "b").2.1 rfl (by decide),
   (heuristic_merge_spec "y" "b" "b").2.2.1 (by decide) rfl,
   (heuristic_merge_spec "y" "x" "b").2.2.2 (by decide) (by decide)⟩

/-- Claim C7.  `MergeLock.__exit__` never lets an exception escape (the
`unlink` is wrapped in `try/except Exception: pass`), and when this holder
did not acquire the lock the file state is untouched. -/
theorem mergeLock_exit_spec (acquired file_exists unlink_raises : Bool) :
    (mergeLock_exit acquired file_exists unlink_raises).2 = false
    ∧ (acquired = false →
        (mergeLock_exit acquired file_exists unlink_raises).1 = file_exists) := by
  cases acquired <;> cases file_exists <;> cases unlink_raises <;>
    simp [mergeLock_exit]

theorem mergeLock_exit_spec_witness :
    (mergeLock_exit false true true).2 = false
    ∧ (mergeLock_exit false true true).1 = true :=
  ⟨(mergeLock_exit_spec false true true).1,
   (mergeLock_exit_spec false true true).2 rfl⟩

/-- Claim C2.  `MergeLock.__enter__`: a malformed payload is removed and
acquisition proceeds; a payload older than 300 s, or one whose pid is not a
running process, is reclaimed; otherwise the acquisition fails with the
`LockHeld` error; every successful acquisition writes exactly
`{spec_name, now, pid}`, overwriting whatever was there.  The hypothesis
`kill 0 = ok` reflects that `os.kill(0, 0)` signals the caller's own process
group, which always exists (the source never probes pid 0: a falsy pid skips
the liveness branch). -/
theorem mergeLock_enter_spec (kill : Int → KillOutcome)
    (now self_pid ts pid : Int) (spec other_spec : String)
    (h0 : kill 0 = KillOutcome.ok) :
    mergeLock_enter kill now self_pid spec .malformed =
      .ok ⟨spec, now, self_pid⟩
    ∧ mergeLock_enter kill now self_pid spec .absent =
      .ok ⟨spec, now, self_pid⟩
    ∧ (now - ts > 300 →
        mergeLock_enter kill now self_pid spec (.holds ⟨other_spec, ts, pid⟩) =
          .ok ⟨spec, now, self_pid⟩)
    ∧ (is_process_running kill pid = false →
        mergeLock_enter kill now self_pid spec (.holds ⟨other_spec, ts, pid⟩) =
          .ok ⟨spec, now, self_pid⟩)
    ∧ (now - ts ≤ 300 → is_process_running kill pid = true →
        mergeLock_enter kill now self_pid spec (.holds ⟨other_spec, ts, pid⟩) =
          .error (lockHeldMessage spec))
    ∧ (∀ file p, mergeLock_enter kill now self_pid spec file = .ok p →
        p = ⟨spec, now, self_pid⟩) := by
  refine ⟨rfl, rfl, ?_, ?_, ?_, ?_⟩
  · intro h
    simp [mergeLock_enter, MERGE_LOCK_TIMEOUT, h]
  · intro h
    have hpid : pid ≠ 0 := by
      intro hz
      rw [hz, is_process_running, h0] at h
      exact absurd h (by simp)
    by_cases h300 : now - ts > MERGE_LOCK_TIMEOUT <;>
      simp [mergeLock_enter, h300, hpid, h]
  · intro h1 h2
    have h300 : ¬ now - ts > MERGE_LOCK_TIMEOUT := by
      simp only [MERGE_LOCK_TIMEOUT]; omega
    simp [mergeLock_enter, h300, h2]
  · intro file p h
    cases file with
    | absent => simpa [mergeLock_enter] using h.symm
    | malformed => simpa [mergeLock_enter] using h.symm
    | holds q =>
      simp only [mergeLock_enter] at h
      split at h
      · simpa using h.symm
      · split at h
        · simpa using h.symm
        · simp at h

theorem mergeLock_enter_spec_witness :
    mergeLock_enter killW 1000 7 "spec-x" (.holds ⟨"spec-x", 400, 99999⟩) =
      .ok ⟨"spec-x", 1000, 7⟩
    ∧ mergeLock_enter killW 1000 7 "spec-x" (.holds ⟨"old", 990, 4242⟩) =
      .error (lockHeldMessage "spec-x") :=
  ⟨(mergeLock_enter_spec killW 1000 7 400 99999 "spec-x" "spec-x"
      (by decide)).2.2.2.1 (by decide),
   (mergeLock_enter_spec killW 1000 7 990 4242 "spec-x" "old"
      (by decide)).2.2.2.2.1 (by decide) (by decide)⟩

/-- Claim C4.  `_merge_file_with_ai` returns `None` before creating the
resolver or issuing any AI call when the extension is binary or either side
has more than 5000 lines (`str.count('\n')`): the result is `none` and the
AI-call trace is empty. -/
theorem merge_file_with_ai_guard (env : MergeEnv) (fp m w : String)
    (b : Option String) (pd : Bool)
    (h : is_binary_file fp = true ∨
      MAX_FILE_LINES_FOR_AI < max (countNL m) (countNL w)) :
    merge_file_with_ai env fp m w b pd = (none, []) := by
  rcases h with h | h
  · simp [merge_file_with_ai, h]
  · by_cases hb : is_binary_file fp = true
    · simp [merge_file_with_ai, hb]
    · simp [merge_file_with_ai, hb, h]

theorem merge_file_with_ai_guard_witness :
    merge_file_with_ai mergeEnvW "assets/logo.png" "a" "b" none true =
      (none, []) :=
  merge_file_with_ai_guard mergeEnvW "assets/logo.png" "a" "b" none true
    (Or.inl (by decide))

/-- Claim C5.  In the full-file AI merge path with a `project_dir` (so the
validator runs): when the first extracted result fails validation, exactly
one further AI call is made (the targeted fix prompt); if nothing can be
extracted from the retry response, or the retried code is still invalid, the
merge returns `None`; and any content this path does return validates. -/
theorem full_file_merge_retry_spec :
    (∀ (env : MergeEnv) (k : Nat) (m : String),
      extract_merged env (env.ai k) = some m → env.valid m = false →
        (full_file_merge env k true).2 = [CallTag.fullFile, CallTag.retryFix]
        ∧ (env.extract_code (env.ai (k + 1)) = none →
            (full_file_merge env k true).1 = none)
        ∧ (∀ m2, env.extract_code (env.ai (k + 1)) = some m2 →
            env.valid m2 = false → (full_file_merge env k true).1 = none))
    ∧ (∀ (env : MergeEnv) (k : Nat) (out : String),
        (full_file_merge env k true).1 = some out → env.valid out = true) := by
  constructor
  · intro env k m hm hv
    cases hr : env.extract_code (env.ai (k + 1)) with
    | none =>
      refine ⟨?_, ?_, ?_⟩
      · simp [full_file_merge, hm, hv, hr]
      · intro _; simp [full_file_merge, hm, hv, hr]
      · intro m2 hm2 _; exact absurd hm2 (by simp)
    | some rm =>
      refine ⟨?_, ?_, ?_⟩
      · by_cases hv2 : env.valid rm <;> simp [full_file_merge, hm, hv, hr, hv2]
      · intro h; exact absurd h (by simp)
      · intro m2 hm2 hv2
        obtain rfl : rm = m2 := by simpa using hm2
        simp [full_file_merge, hm, hv, hr, hv2]
  · intro env k out h
    simp only [full_file_merge] at h
    cases hm : extract_merged env (env.ai k) with
    | none => rw [hm] at h; simp at h
    | some m =>
      rw [hm] at h
      simp only [if_true, Bool.true_eq] at h
      by_cases hv : env.valid m
      · simp [hv] at h; rw [← h]; exact hv
      · simp only [hv, if_neg, Bool.false_eq_true, if_false] at h
        cases hr : env.extract_code (env.ai (k + 1)) with
        | none => rw [hr] at h; simp at h
        | some rm =>
          rw [hr] at h
          by_cases hv2 : env.valid rm
          · simp [hv2] at h; rw [← h]; exact hv2
          · simp [hv2] at h

theorem full_file_merge_retry_witness :
    (full_file_merge mergeEnvRetryW 0 true).2 =
      [CallTag.fullFile, CallTag.retryFix]
    ∧ (full_file_merge mergeEnvRetryW 0 true).1 = none
    ∧ mergeEnvValidW.valid "m0" = true :=
  ⟨(full_file_merge_retry_spec.1 mergeEnvRetryW 0 "m0" (by decide)
      (by decide)).1,
   (full_file_merge_retry_spec.1 mergeEnvRetryW 0 "m0" (by decide)
      (by decide)).2.1 (by decide),
   full_file_merge_retry_spec.2 mergeEnvValidW 0 "m0" (by decide)⟩

/-- Claim C8.  When `_check_git_conflicts` reports conflicts but no
conflicting path could be parsed from the `merge-tree` output, the reported
`conflicting_files` are exactly (as a set) the files changed between the
merge-base and the base tip that were also changed between the merge-base
and the spec tip. -/
theorem check_git_conflicts_fallback (env : GitEnv)
    (parse_line : String → Option String) (spec_name f : String)
    (hc : (check_git_conflicts env parse_line spec_name).has_conflicts = true)
    (hp : parse_conflict_files parse_line env.merge_tree_out = []) :
    f ∈ (check_git_conflicts env parse_line spec_name).conflicting_files ↔
      f ∈ pySplitFiles env.diff_main ∧ f ∈ pySplitFiles env.diff_spec := by
  simp only [check_git_conflicts] at *
  cases hmb : env.merge_base with
  | none => rw [hmb] at hc; simp at hc
  | some mb =>
    rw [hmb] at hc
    cases hr1 : env.rev_main with
    | none => rw [hr1] at hc; simp at hc
    | some c1 =>
      rw [hr1] at hc
      cases hr2 : env.rev_spec with
      | none => rw [hr2] at hc; simp at hc
      | some c2 =>
        rw [hr2] at hc
        by_cases hmt : env.merge_tree_conflict
        · simp only [hmt, if_true, hp, List.mem_dedup, List.mem_filter]
          constructor
          · rintro ⟨h1, h2⟩
            exact ⟨h1, by simpa using h2⟩
          · rintro ⟨h1, h2⟩
            exact ⟨h1, by simpa using h2⟩
        · simp [hmt] at hc

theorem check_git_conflicts_fallback_witness :
    "b.txt" ∈ (check_git_conflicts gitEnvW parseLineW "spec-x").conflicting_files :=
  (check_git_conflicts_fallback gitEnvW parseLineW "spec-x" "b.txt"
      (by decide) (by decide)).mpr ⟨by decide, by decide⟩

/-- Claim C9.  `_validate_merged_syntax` is best-effort: an extension with
no known checker always validates; for TypeScript/JavaScript a checker
timeout or missing checker tool validates; for `.json` the result is
invalid exactly when JSON decoding fails, and the error message carries the
decode error's line number. -/
theorem validate_merged_spec (env : ValidateEnv) (fp content : String) :
    (pyLower (pySuffix fp) ∉
        [".ts", ".tsx", ".js", ".jsx", ".py", ".json"] →
      validate_merged env fp content = (true, ""))
    ∧ (pyLower (pySuffix fp) ∈ [".ts", ".tsx"] →
        env.tsc = .timeout ∨ env.tsc = .missing →
        validate_merged env fp content = (true, ""))
    ∧ (pyLower (pySuffix fp) ∈ [".js", ".jsx"] →
        env.eslint = .timeout ∨ env.eslint = .missing →
        validate_merged env fp content = (true, ""))
    ∧ (pyLower (pySuffix fp) = ".json" →
        (((validate_merged env fp content).1 = false) ↔
          env.jsonDecode content ≠ none)
        ∧ (∀ msg lineno, env.jsonDecode content = some (msg, lineno) →
            validate_merged env fp content =
              (false, "JSON error: " ++ msg ++ " at line " ++
                toString lineno))) := by
  refine ⟨?_, ?_, ?_, ?_⟩
  · intro h
    simp only [List.mem_cons, List.not_mem_nil, or_false] at h
    push_neg at h
    obtain ⟨h1, h2, h3, h4, h5, h6⟩ := h
    simp [validate_merged, h1, h2, h3, h4, h5, h6]
  · intro hts htsc
    have hmem : pyLower (pySuffix fp) ∈ [".ts", ".tsx", ".js", ".jsx"] := by
      simp only [List.mem_cons, List.not_mem_nil, or_false] at hts ⊢
      tauto
    rcases htsc with h | h <;>
      simp [validate_merged, hmem, hts, validate_tsjs, h]
  · intro hjs hes
    have hmem : pyLower (pySuffix fp) ∈ [".ts", ".tsx", ".js", ".jsx"] := by
      simp only [List.mem_cons, List.not_mem_nil, or_false] at hjs ⊢
      tauto
    have hnotts : pyLower (pySuffix fp) ∉ [".ts", ".tsx"] := by
      simp only [List.mem_cons, List.not_mem_nil, or_false] at hjs ⊢
      rcases hjs with h | h <;> rw [h] <;> decide
    rcases hes with h | h <;>
      simp [validate_merged, hmem, hnotts, validate_tsjs, run_eslint_check, h]
  · intro hjson
    have hnot : pyLower (pySuffix fp) ∉ [".ts", ".tsx", ".js", ".jsx"] := by
      rw [hjson]; decide
    have hnotpy : pyLower (pySuffix fp) ≠ ".py" := by rw [hjson]; decide
    constructor
    · cases hd : env.jsonDecode content with
      | none => simp [validate_merged, hnot, hnotpy, hjson, hd]
      | some e => simp [validate_merged, hnot, hnotpy, hjson, hd]
    · intro msg lineno hd
      simp [validate_merged, hnot, hnotpy, hjson, hd]

theorem validate_merged_spec_witness :
    validate_merged validateEnvW "README.md" "x" = (true, "")
    ∧ validate_merged validateEnvW "a.ts" "x" = (true, "")
    ∧ validate_merged validateEnvW "a.jsx" "x" = (true, "")
    ∧ validate_merged validateEnvW "a.json" "bad" =
      (false, "JSON error: Expecting value at line 1") :=
  ⟨(validate_merged_spec validateEnvW "README.md" "x").1 (by decide),
   (validate_merged_spec validateEnvW "a.ts" "x").2.1 (by decide)
     (Or.inl rfl),
   (validate_merged_spec validateEnvW "a.jsx" "x").2.2.1 (by decide)
     (Or.inr rfl),
   ((validate_merged_spec validateEnvW "a.json" "bad").2.2.2 (by decide)).2
     "Expecting value" 1 (by decide)⟩

/-! ### Auto-fix status invariant (helper lemmas) -/

theorem dGet_dSet_self (d : List (String × J)) (k : String) (v : J) :
    dGet (dSet d k v) k = some v := by
  induction d with
  | nil => simp [dSet, dGet]
  | cons kv rest ih =>
    obtain ⟨k1, v1⟩ := kv
    by_cases h : k1 = k
    · simp [dSet, dGet, h]
    · simp [dSet, dGet, h, ih]

theorem jEqStr_eq {v : J} {s : String} (h : jEqStr v s = true) : v = .str s := by
  cases v <;> simp_all [jEqStr]

theorem normalize_status_mem (v : J) : normalize_status v ∈ STATUS_SET := by
  cases v with
  | str s =>
    simp only [normalize_status]
    by_cases h1 : STATUS_SET.contains (pyLower (pyStrip s))
    · rw [if_pos h1]
      simpa using h1
    · rw [if_neg h1]
      by_cases h2 : (["not_started", "not started", "todo", "to_do",
          "backlog"].contains (pyLower (pyStrip s)))
      · rw [if_pos h2]; decide
      · rw [if_neg h2]
        by_cases h3 : (["in-progress", "inprogress",
            "working"].contains (pyLower (pyStrip s)))
        · rw [if_pos h3]; decide
        · rw [if_neg h3]
          by_cases h4 : (["done", "complete",
              "completed_successfully"].contains (pyLower (pyStrip s)))
          · rw [if_pos h4]; decide
          · rw [if_neg h4]; decide
  | num n => exact show "pending" ∈ STATUS_SET by decide
  | bool b => exact show "pending" ∈ STATUS_SET by decide
  | null => exact show "pending" ∈ STATUS_SET by decide
  | arr xs => exact show "pending" ∈ STATUS_SET by decide
  | obj kvs => exact show "pending" ∈ STATUS_SET by decide

theorem normalize_status_id (s : String) (h : s ∈ STATUS_SET) :
    normalize_status (.str s) = s := by
  simp only [STATUS_SET, List.mem_cons, List.not_mem_nil, or_false] at h
  rcases h with rfl | rfl | rfl | rfl | rfl <;> decide

theorem fix_status_ok (st : List (String × J)) :
    ∃ s, dGet (fix_status st).1 "status" = some (J.str s) ∧ s ∈ STATUS_SET := by
  simp only [fix_status]
  by_cases h : dHas st "status"
  · rw [if_pos h]
    by_cases hjq : jEqStr ((dGet st "status").getD J.null)
        (normalize_status ((dGet st "status").getD J.null))
    · rw [if_pos hjq]
      obtain ⟨v, hv⟩ := Option.isSome_iff_exists.mp (by simpa [dHas] using h)
      have hcv : (dGet st "status").getD J.null = v := by rw [hv]; rfl
      refine ⟨normalize_status ((dGet st "status").getD J.null), ?_,
        normalize_status_mem _⟩
      rw [hv, ← hcv]
      exact congrArg some (jEqStr_eq hjq)
    · rw [if_neg hjq]
      exact ⟨normalize_status ((dGet st "status").getD J.null),
        dGet_dSet_self _ _ _, normalize_status_mem _⟩
  · rw [if_neg h]
    exact ⟨"pending", dGet_dSet_self _ _ _, by decide⟩

theorem fix_subtask_status
    (aliasFn : List (String × J) → List (String × J) × Bool) (i j : Nat)
    (st : List (String × J)) :
    ∃ s, dGet (fix_subtask aliasFn i j st).1 "status" = some (J.str s) ∧
      s ∈ STATUS_SET := by
  simp only [fix_subtask]
  exact fix_status_ok _

theorem fix_subtasks_ok
    (aliasFn : List (String × J) → List (String × J) × Bool) (i : Nat)
    (xs : List J) :
    ∀ (j : Nat) (xs' : List J) (fl : Bool),
      fix_subtasks aliasFn i j xs = some (xs', fl) →
      ∀ kv ∈ objElems xs',
        ∃ s, dGet kv "status" = some (J.str s) ∧ s ∈ STATUS_SET := by
  induction xs with
  | nil =>
    intro j xs' fl h kv hkv
    simp only [fix_subtasks, Option.some.injEq, Prod.mk.injEq] at h
    obtain ⟨rfl, rfl⟩ := h
    simp [objElems] at hkv
  | cons x rest ih =>
    intro j xs' fl h kv hkv
    cases x with
    | obj kv0 =>
      simp only [fix_subtasks] at h
      cases hrec : fix_subtasks aliasFn i (j + 1) rest with
      | none => rw [hrec] at h; simp at h
      | some pr =>
        obtain ⟨rest', f2⟩ := pr
        rw [hrec] at h
        simp only [Option.some.injEq, Prod.mk.injEq] at h
        obtain ⟨rfl, rfl⟩ := h
        simp only [objElems, List.filterMap_cons] at hkv
        rcases (List.mem_cons).mp hkv with rfl | htail
        · exact fix_subtask_status aliasFn i j kv0
        · exact ih (j + 1) rest' f2 hrec kv htail
    | str s0 => simp [fix_subtasks] at h
    | num n => simp [fix_subtasks] at h
    | bool b => simp [fix_subtasks] at h
    | null => simp [fix_subtasks] at h
    | arr ys => simp [fix_subtasks] at h

theorem getD_arr_str {o : Option J} {s : String}
    (h : o.getD (.arr []) = .str s) : o = some (.str s) := by
  cases o with
  | none => simp [Option.getD] at h
  | some w => simpa using h

theorem getD_arr_obj {o : Option J} {kvs : List (String × J)}
    (h : o.getD (.arr []) = .obj kvs) : o = some (.obj kvs) := by
  cases o with
  | none => simp [Option.getD] at h
  | some w => simpa using h

theorem subtasks_value_fix_ok
    (aliasFn : List (String × J) → List (String × J) × Bool) (i : Nat)
    (ph1 : List (String × J)) (f1 : Bool) (v : J)
    (hv : (dGet ph1 "subtasks").getD (.arr []) = v)
    (ph' : List (String × J)) (fl : Bool)
    (h : subtasks_value_fix aliasFn i ph1 f1 v = some (ph', fl)) :
    ∀ st ∈ subtaskObjs ph',
      ∃ s, dGet st "status" = some (J.str s) ∧ s ∈ STATUS_SET := by
  intro st hst
  cases v with
  | arr xs =>
    simp only [subtasks_value_fix] at h
    cases hfs : fix_subtasks aliasFn i 0 xs with
    | none => rw [hfs] at h; simp at h
    | some pr =>
      obtain ⟨xs', f2⟩ := pr
      rw [hfs] at h
      simp only [Option.some.injEq, Prod.mk.injEq] at h
      obtain ⟨rfl, rfl⟩ := h
      simp only [subtaskObjs, dGet_dSet_self] at hst
      exact fix_subtasks_ok aliasFn i xs 0 xs' f2 hfs st hst
  | str s0 =>
    simp only [subtasks_value_fix] at h
    by_cases hs : s0 = ""
    · rw [if_pos hs] at h
      simp only [Option.some.injEq, Prod.mk.injEq] at h
      obtain ⟨rfl, rfl⟩ := h
      rw [subtaskObjs, getD_arr_str hv] at hst
      simp at hst
    · rw [if_neg hs] at h; simp at h
  | obj kvs =>
    simp only [subtasks_value_fix] at h
    by_cases hk : kvs.isEmpty
    · rw [if_pos hk] at h
      simp only [Option.some.injEq, Prod.mk.injEq] at h
      obtain ⟨rfl, rfl⟩ := h
      rw [subtaskObjs, getD_arr_obj hv] at hst
      simp at hst
    · rw [if_neg hk] at h; simp at h
  | num n => simp [subtasks_value_fix] at h
  | bool b => simp [subtasks_value_fix] at h
  | null => simp [subtasks_value_fix] at h

theorem fix_phase_ok (strO : J → String)
    (aliasFn : List (String × J) → List (String × J) × Bool) (i : Nat)
    (ph ph' : List (String × J)) (fl : Bool)
    (h : fix_phase strO aliasFn i ph = some (ph', fl)) :
    ∀ st ∈ subtaskObjs ph',
      ∃ s, dGet st "status" = some (J.str s) ∧ s ∈ STATUS_SET := by
  exact subtasks_value_fix_ok aliasFn i (fix_phase_fields strO i ph).1
    (fix_phase_fields strO i ph).2 _ rfl ph' fl h

theorem fix_phases_nil (strO : J → String)
    (aliasFn : List (String × J) → List (String × J) × Bool) (i : Nat) :
    fix_phases strO aliasFn i [] = some ([], false) := rfl

theorem fix_phases_cons_obj (strO : J → String)
    (aliasFn : List (String × J) → List (String × J) × Bool) (i : Nat)
    (kv : List (String × J)) (xs : List J) :
    fix_phases strO aliasFn i (J.obj kv :: xs) =
      match fix_phase strO aliasFn i kv with
      | none => none
      | some pr =>
        match fix_phases strO aliasFn (i + 1) xs with
        | none => none
        | some (rest, f2) => some (J.obj pr.1 :: rest, pr.2 || f2) := rfl

theorem fix_phases_ok (strO : J → String)
    (aliasFn : List (String × J) → List (String × J) × Bool)
    (xs : List J) :
    ∀ (i : Nat) (xs' : List J) (fl : Bool),
      fix_phases strO aliasFn i xs = some (xs', fl) →
      ∀ kv ∈ objElems xs', ∀ st ∈ subtaskObjs kv,
        ∃ s, dGet st "status" = some (J.str s) ∧ s ∈ STATUS_SET := by
  induction xs with
  | nil =>
    intro i xs' fl h kv hkv
    rw [fix_phases_nil] at h
    simp only [Option.some.injEq, Prod.mk.injEq] at h
    obtain ⟨rfl, rfl⟩ := h
    simp [objElems] at hkv
  | cons x rest ih =>
    intro i xs' fl h kv hkv st hst
    cases x with
    | obj kv0 =>
      rw [fix_phases_cons_obj] at h
      cases hfp : fix_phase strO aliasFn i kv0 with
      | none => rw [hfp] at h; simp at h
      | some pr =>
        rw [hfp] at h
        cases hrec : fix_phases strO aliasFn (i + 1) rest with
        | none => rw [hrec] at h; simp at h
        | some pr2 =>
          obtain ⟨rest', f2⟩ := pr2
          rw [hrec] at h
          simp only [Option.some.injEq, Prod.mk.injEq] at h
          obtain ⟨rfl, rfl⟩ := h
          simp only [objElems, List.filterMap_cons] at hkv
          rcases (List.mem_cons).mp hkv with rfl | htail
          · exact fix_phase_ok strO aliasFn i kv0 pr.1 pr.2
              (by rw [hfp]) st hst
          · exact ih (i + 1) rest' f2 hrec kv htail st hst
    | str s0 => exact absurd h (by rw [show fix_phases strO aliasFn i
        (J.str s0 :: rest) = none from rfl]; simp)
    | num n => exact absurd h (by rw [show fix_phases strO aliasFn i
        (J.num n :: rest) = none from rfl]; simp)
    | bool b => exact absurd h (by rw [show fix_phases strO aliasFn i
        (J.bool b :: rest) = none from rfl]; simp)
    | null => exact absurd h (by rw [show fix_phases strO aliasFn i
        (J.null :: rest) = none from rfl]; simp)
    | arr ys => exact absurd h (by rw [show fix_phases strO aliasFn i
        (J.arr ys :: rest) = none from rfl]; simp)

/-- Claim C10.  `_normalize_status` always lands in the recognized status
set and leaves members of it unchanged; consequently, whenever
`auto_fix_plan` completes on a parsed plan, every dict subtask of every dict
phase of the resulting (written) plan carries a `status` drawn from that
set, for every alias-normalization collaborator and `str()` rendering. -/
theorem auto_fix_plan_statuses :
    (∀ v, normalize_status v ∈ STATUS_SET)
    ∧ (∀ s, s ∈ STATUS_SET → normalize_status (.str s) = s)
    ∧ (∀ (strO : J → String)
        (aliasFn : List (String × J) → List (String × J) × Bool)
        (plan fixed_plan : J) (fl : Bool),
        auto_fix_plan strO aliasFn plan = some (fixed_plan, fl) →
        ∀ ph ∈ phaseObjs fixed_plan, ∀ st ∈ subtaskObjs ph,
          ∃ s, dGet st "status" = some (J.str s) ∧ s ∈ STATUS_SET) := by
  refine ⟨normalize_status_mem, normalize_status_id, ?_⟩
  have key : ∀ (strO : J → String)
      (aliasFn : List (String × J) → List (String × J) × Bool)
      (p4 : List (String × J)) (f4 : Bool) (v : J)
      (hv : (dGet p4 "phases").getD (.arr []) = v) (res : J) (fl : Bool)
      (h : phases_value_fix strO aliasFn p4 f4 v = some (res, fl)),
      ∀ kv ∈ phaseObjs res, ∀ st ∈ subtaskObjs kv,
        ∃ s, dGet st "status" = some (J.str s) ∧ s ∈ STATUS_SET := by
    intro strO aliasFn p4 f4 v hv res fl h kv hkv st hst
    cases v with
    | arr xs =>
      simp only [phases_value_fix] at h
      cases hfp : fix_phases strO aliasFn 0 xs with
      | none => rw [hfp] at h; simp at h
      | some pr =>
        obtain ⟨xs', f5⟩ := pr
        rw [hfp] at h
        simp only [Option.some.injEq, Prod.mk.injEq] at h
        obtain ⟨rfl, rfl⟩ := h
        simp only [phaseObjs, dGet_dSet_self] at hkv
        exact fix_phases_ok strO aliasFn xs 0 xs' f5 hfp kv hkv st hst
    | str s0 =>
      simp only [phases_value_fix] at h
      by_cases hs : s0 = ""
      · rw [if_pos hs] at h
        simp only [Option.some.injEq, Prod.mk.injEq] at h
        obtain ⟨rfl, rfl⟩ := h
        rw [phaseObjs, getD_arr_str hv] at hkv
        simp at hkv
      · rw [if_neg hs] at h; simp at h
    | obj kvs =>
      simp only [phases_value_fix] at h
      by_cases hk : kvs.isEmpty
      · rw [if_pos hk] at h
        simp only [Option.some.injEq, Prod.mk.injEq] at h
        obtain ⟨rfl, rfl⟩ := h
        rw [phaseObjs, getD_arr_obj hv] at hkv
        simp at hkv
      · rw [if_neg hk] at h; simp at h
    | num n => simp [phases_value_fix] at h
    | bool b => simp [phases_value_fix] at h
    | null => simp [phases_value_fix] at h
  intro strO aliasFn plan res fl h kv hkv st hst
  cases plan with
  | obj p0 =>
    simp only [auto_fix_plan] at h
    exact key strO aliasFn (auto_fix_top p0).1 (auto_fix_top p0).2 _ rfl
      res fl h kv hkv st hst
  | str s => simp [auto_fix_plan] at h
  | num n => simp [auto_fix_plan] at h
  | bool b => simp [auto_fix_plan] at h
  | null => simp [auto_fix_plan] at h
  | arr xs => simp [auto_fix_plan] at h

theorem auto_fix_plan_statuses_witness :
    normalize_status (J.str "Done") ∈ STATUS_SET
    ∧ normalize_status (J.str "blocked") = "blocked"
    ∧ (∃ s, dGet subtaskW "status" = some (J.str s) ∧ s ∈ STATUS_SET) :=
  ⟨auto_fix_plan_statuses.1 (J.str "Done"),
   auto_fix_plan_statuses.2.1 "blocked" (by decide),
   auto_fix_plan_statuses.2.2 strOW aliasFnW planW resW true rfl
     phW (List.Mem.head []) subtaskW (List.Mem.head [])⟩

end AutoClaude
